import Mathlib

/-!
Verification of the documentation indexing and retrieval pipeline of the
`node-typescript-mcp` repository: the markdown document processor
(`MarkdownProcessor`), the search index wrapper (`SearchIndexBuilder`), the
two-tier cache (`Cache`), the TypeScript docs service and its MCP tool
handler.  Pure functions of the TypeScript source are translated into Lean
definitions; the MiniSearch engine (a third-party dependency whose source is
not part of the repository) is modelled from the specification's description
of its behaviour, as noted on each such definition.
-/

/-! ## List preliminaries: a stable comparator sort

JavaScript `Array.prototype.sort(cmp)` is stable (ES2019) and, for a
consistent comparator, places `a` before `b` whenever `cmp a b < 0`, keeping
the original relative order of elements comparing equal.  We model it as a
stable insertion sort driven by a rational-valued comparator. -/

/-- Insert `x` into `l`, skipping the elements that compare strictly
before `x`; elements comparing equal to `x` stay behind it, which gives
stability when the outer sort inserts earlier elements last. -/
def insertCmp {α : Type} (cmp : α → α → ℚ) (x : α) : List α → List α
  | [] => [x]
  | y :: ys => if cmp y x < 0 then y :: insertCmp cmp x ys else x :: y :: ys

/-- Stable sort by a JavaScript-style comparator (negative means
"first argument sorts before the second"). -/
def sortCmp {α : Type} (cmp : α → α → ℚ) : List α → List α
  | [] => []
  | x :: xs => insertCmp cmp x (sortCmp cmp xs)

/-! ## String preliminaries -/

/-- `startsWithChars p l` is true when the character list `p` is an initial
segment of `l` (model of `String.prototype.startsWith`). -/
def startsWithChars : List Char → List Char → Bool
  | [], _ => true
  | _ :: _, [] => false
  | a :: as, b :: bs => a = b && startsWithChars as bs

/-- `containsSeg needle hay` is true when `needle` occurs as a contiguous
segment of `hay` (model of `String.prototype.includes`). -/
def containsSeg (needle : List Char) : List Char → Bool
  | [] => needle.isEmpty
  | c :: rest => startsWithChars needle (c :: rest) || containsSeg needle rest

/-- Model of JavaScript `String.prototype.split(' ')` on a character list:
splitting keeps empty pieces (`''.split(' ')` is `['']`). -/
def splitChars : List Char → List (List Char)
  | [] => [[]]
  | c :: rest =>
    match splitChars rest with
    | [] => [[]]
    | w :: ws => if c = ' ' then [] :: w :: ws else (c :: w) :: ws

/-- `String.prototype.split(' ')`. -/
def jsSplitSpace (s : String) : List String :=
  (splitChars s.data).map List.asString

/-- `String.prototype.toLowerCase` (over the characters of the string). -/
def strToLower (s : String) : String :=
  (s.data.map Char.toLower).asString

/-! ## Markdown processor (`src/services/preprocessing/markdown-processor.ts`)

`MarkdownProcessor.processFile` reads a file, strips YAML frontmatter, runs
the third-party `marked.lexer` to obtain a flat token stream, and chunks that
stream at heading boundaries.  The lexer is external to the repository, so
the embedding works at the token-stream level: `MdToken` models the `marked`
token shapes the processor inspects (`type` and `text`). -/

/-- Model of the `marked` tokens the processor distinguishes.  `marked` list
tokens carry no `text` property and `space` tokens carry none either, so
their textual content reads as `''` in the source (`(t as any).text || ''`). -/
inductive MdToken where
  | heading (text : String)
  | paragraph (text : String)
  | code (text : String)
  | listTok (raw : String)
  | space
deriving DecidableEq, Repr

/-- Textual content of a token as read by `(t as any).text || ''`. -/
def MdToken.text : MdToken → String
  | .heading t => t
  | .paragraph t => t
  | .code t => t
  | .listTok _ => ""
  | .space => ""

def MdToken.isHeading : MdToken → Bool
  | .heading _ => true
  | _ => false

def MdToken.isCode : MdToken → Bool
  | .code _ => true
  | _ => false

def MdToken.isList : MdToken → Bool
  | .listTok _ => true
  | _ => false

structure ChunkMetadata where
  sectionTitle : String
  importance : ℚ
deriving DecidableEq, Repr

structure ProcessedChunk where
  content : String
  metadata : ChunkMetadata
deriving DecidableEq, Repr

structure DocMetadata where
  category : String
  path : String
  lastModified : ℤ
deriving DecidableEq, Repr

structure ProcessedDoc where
  id : String
  title : String
  content : String
  chunks : List ProcessedChunk
  metadata : DocMetadata
deriving DecidableEq, Repr

/-- The fixed boost vocabulary of `calculateImportance`. -/
def keyTerms : List String := ["interface", "type", "class", "function", "example", "usage"]

/-- `MarkdownProcessor.calculateImportance`: start at 1; +1 when the section
title contains (case-insensitively) a key term; +1 when some token is a code
block; +0.5 when some token is a list. -/
def calculateImportance (sectionTitle : String) (tokens : List MdToken) : ℚ :=
  let i0 : ℚ := 1
  let i1 := if keyTerms.any (fun term => containsSeg term.toList (strToLower sectionTitle).toList)
    then i0 + 1 else i0
  let i2 := if tokens.any MdToken.isCode then i1 + 1 else i1
  if tokens.any MdToken.isList then i2 + 1/2 else i2

/-- A flushed chunk: newline-joined token texts plus section metadata. -/
def mkChunk (sectionTitle : String) (buffer : List MdToken) : ProcessedChunk :=
  { content := String.intercalate "\n" (buffer.map MdToken.text)
    metadata := { sectionTitle := sectionTitle
                  importance := calculateImportance sectionTitle buffer } }

/-- The chunking loop of `processFile`: on a heading, flush the buffer (when
non-empty) under the previous section title and reset; at end of stream,
flush any remaining buffer. -/
def chunkTokens (sectionTitle : String) (buffer : List MdToken) :
    List MdToken → List ProcessedChunk
  | [] => if buffer.isEmpty then [] else [mkChunk sectionTitle buffer]
  | t :: ts =>
    match t with
    | .heading h =>
      (if buffer.isEmpty then [] else [mkChunk sectionTitle buffer]) ++ chunkTokens h [] ts
    | _ => chunkTokens sectionTitle (buffer ++ [t]) ts

/-- Chunk list produced by `processFile` from a lexed token stream (the
current section starts out empty). -/
def processFileChunks (tokens : List MdToken) : List ProcessedChunk :=
  chunkTokens "" [] tokens

/-- Number of heading tokens in a stream. -/
def headingCount (tokens : List MdToken) : ℕ :=
  (tokens.filter MdToken.isHeading).length

/-- The preamble: tokens before the first heading. -/
def preambleTokens (tokens : List MdToken) : List MdToken :=
  tokens.takeWhile (fun t => !t.isHeading)

/-- Every heading opens a non-empty section: no heading is the last token,
and no heading is immediately followed by another heading. -/
def headedSectionsNonEmpty : List MdToken → Bool
  | [] => true
  | t :: ts =>
    if t.isHeading then
      match ts with
      | [] => false
      | u :: _ => !u.isHeading && headedSectionsNonEmpty ts
    else headedSectionsNonEmpty ts

/-! ## Search engine model (MiniSearch) and `SearchIndexBuilder`
(`src/services/preprocessing/index-builder.ts`)

MiniSearch is a third-party library; its retrieval behaviour is modelled
from the spec: full-text retrieval over the indexed fields `title` and
`content` with title boosted 3x and content 1x, optional prefix matching on
query terms, a per-candidate filter predicate over stored fields, and results
sorted by score (descending, stable).  The small fuzzy edit-distance
tolerance is not modelled (none of the checked claims depends on it).
What MiniSearch stores per added document is determined by the repository's
configuration: the constructor passes `storeFields: ['title','path','category']`,
so the stored-field table built by `buildIndex` has no `importance` field. -/

/-- Stored-field projection retrievable by id (`getStoredFields`).  Fields
absent from the `storeFields` configuration are `none`. -/
structure StoredFields where
  title : Option String
  path : Option String
  category : Option String
  importance : Option ℚ
deriving DecidableEq, Repr

/-- One searchable record, flattened from a chunk (`IndexedDoc` in the source). -/
structure IndexedDoc where
  id : String
  title : String
  content : String
  sectionTitle : String
  category : String
  importance : ℚ
  path : String
deriving DecidableEq, Repr

/-- Modelled from the spec: the engine keeps, per added document, the indexed
terms of each indexed field and the configured stored-field projection. -/
structure EngineEntry where
  id : String
  titleTerms : List String
  contentTerms : List String
  stored : StoredFields
deriving DecidableEq, Repr

/-- Modelled from the spec: engine state = added entries plus the default
search options relevant to the claims (whether prefix matching is on).
The repository's constructor sets `searchOptions.prefix = true`; `loadIndex`
rebuilds the engine without `searchOptions`, whose library default is
`false`, and the per-call options of `search` pass `boost` and `fuzzy` but
never `prefix`, so the default governs every query. -/
structure MiniSearchIndex where
  entries : List EngineEntry
  pfxOn : Bool
deriving DecidableEq, Repr

/-- Modelled from the spec: whitespace tokenization with lower-casing of
terms, as applied to indexed field values and query strings alike. -/
def msTokenize (s : String) : List String :=
  ((jsSplitSpace s).filter (fun w => w ≠ "")).map strToLower

/-- Modelled from the spec: a query term matches an indexed term exactly, or
as a proper stem when prefix matching is on. -/
def termMatch (pfxOn : Bool) (q t : String) : Bool :=
  q = t || (pfxOn && startsWithChars q.toList t.toList)

/-- Number of indexed terms of a field matched by a query term. -/
def countMatches (pfxOn : Bool) (q : String) (terms : List String) : ℕ :=
  (terms.filter (termMatch pfxOn q)).length

/-- Modelled from the spec: relevance of an entry for a query, with the
title field boosted 3x and content 1x. -/
def entryScore (pfxOn : Bool) (qs : List String) (e : EngineEntry) : ℚ :=
  qs.foldl (fun acc q =>
    acc + 3 * countMatches pfxOn q e.titleTerms + countMatches pfxOn q e.contentTerms) 0

/-- `SearchIndexBuilder.getStoredFields` (minus the `|| {}` defaulting of the
public wrapper): the stored projection for an id, when present. -/
def getStoredFields (ms : MiniSearchIndex) (id : String) : Option StoredFields :=
  (ms.entries.find? (fun e => e.id = id)).map EngineEntry.stored

structure EngineHit where
  id : String
  score : ℚ
deriving DecidableEq, Repr

/-- Modelled from the spec: the engine returns every entry with a positive
score that passes the optional filter predicate, ordered by descending score
(stable in entry order). -/
def engineSearch (ms : MiniSearchIndex) (qs : List String)
    (flt : Option (String → Bool)) : List EngineHit :=
  let keep : EngineEntry → Bool := fun e =>
    decide (0 < entryScore ms.pfxOn qs e) &&
      (match flt with
       | none => true
       | some f => f e.id)
  sortCmp (fun a b => b.score - a.score)
    ((ms.entries.filter keep).map (fun e => ⟨e.id, entryScore ms.pfxOn qs e⟩))

/-- `processDocForIndexing`: one `IndexedDoc` per chunk, keyed
`${doc.id}_${index}` and carrying the parent's title/category/path. -/
def processDocForIndexing (doc : ProcessedDoc) : List IndexedDoc :=
  doc.chunks.enum.map (fun p =>
    { path := doc.metadata.path
      id := doc.id ++ "_" ++ toString p.1
      title := doc.title
      content := p.2.content
      sectionTitle := p.2.metadata.sectionTitle
      category := doc.metadata.category
      importance := p.2.metadata.importance })

/-- Stored projection under the constructor's configuration
`storeFields: ['title', 'path', 'category']`: no `importance`. -/
def storeBase (d : IndexedDoc) : StoredFields :=
  { title := some d.title, path := some d.path, category := some d.category,
    importance := none }

/-- `addAll` under the constructor's configuration: index `title` and
`content`, store `title`/`path`/`category`. -/
def addAllBase (ms : MiniSearchIndex) (ds : List IndexedDoc) : MiniSearchIndex :=
  { ms with entries := ms.entries ++ ds.map (fun d =>
      { id := d.id, titleTerms := msTokenize d.title,
        contentTerms := msTokenize d.content, stored := storeBase d }) }

/-- A fresh `SearchIndexBuilder`: empty engine with `prefix: true` among its
default search options. -/
def newSearchIndexBuilder : MiniSearchIndex :=
  { entries := [], pfxOn := true }

/-- `buildIndex`: flatten every document's chunks and bulk-insert them
(the subsequent `saveIndex` persistence is modelled by `saveIndexBlob`). -/
def buildIndex (ms : MiniSearchIndex) (docs : List ProcessedDoc) : MiniSearchIndex :=
  addAllBase ms (docs.flatMap processDocForIndexing)

/-- `saveIndex` serializes the engine via `toJSON`: term postings and the
stored-field table, i.e. the entry list; the default search options are not
part of the serialized blob. -/
def saveIndexBlob (ms : MiniSearchIndex) : List EngineEntry :=
  ms.entries

/-- `loadIndex` rebuilds the engine with `MiniSearch.loadJS(blob, options)`:
entry data comes from the blob, while the options passed in `loadIndex`
contain no `searchOptions`, so the library default `prefix: false` applies. -/
def loadIndexState (blob : List EngineEntry) : MiniSearchIndex :=
  { entries := blob, pfxOn := false }

/-- Result record of `SearchIndexBuilder.search` (the `terms` payload is
always `[]` in the source and the truncated `match` context is outside the
model's scope, constantly `""` here). -/
structure BuilderResult where
  id : String
  score : ℚ
  matchStr : String
  title : String
  category : String
  path : String
deriving DecidableEq, Repr

/-- Query preprocessing of `SearchIndexBuilder.search`: split on spaces,
drop words of length <= 2, keep the first 3 (the engine then lower-cases the
rejoined terms). -/
def cleanQuery (query : String) : List String :=
  ((((jsSplitSpace query).filter (fun w => 2 < w.length)).take 3)).map strToLower

/-- The category filter closure passed to the engine: look the candidate id
up in the stored-field table and compare its `category` to the filter. -/
def categoryFilter (ms : MiniSearchIndex) (c : String) (id : String) : Bool :=
  match getStoredFields ms id with
  | none => false
  | some sf => sf.category = some c

/-- The final comparator of `SearchIndexBuilder.search`: primary key is the
engine score (descending); on a tie, the importance read from the
stored-field table (descending), defaulting to 0 when the stored projection
has no numeric `importance`. -/
def builderCompare (ms : MiniSearchIndex) (a b : BuilderResult) : ℚ :=
  if b.score - a.score ≠ 0 then b.score - a.score
  else
    (match getStoredFields ms b.id with
     | some sf => sf.importance.getD 0
     | none => 0) -
    (match getStoredFields ms a.id with
     | some sf => sf.importance.getD 0
     | none => 0)

/-- `SearchIndexBuilder.search`: clean the query, run the engine with the
optional category filter, keep the top 5, project each hit through the
stored-field table, and re-sort by score with the importance tie-break.
The filter is installed by `options.category ? (...) : undefined`, a JS
truthiness test, so an empty-string category counts as absent and disables
filtering. -/
def SearchIndexBuilder.search (ms : MiniSearchIndex) (query : String)
    (category : Option String) : List BuilderResult :=
  let hits := engineSearch ms (cleanQuery query)
    (match category with
     | some c => if c = "" then none else some (categoryFilter ms c)
     | none => none)
  let top := hits.take 5
  let results := top.map (fun r =>
    match getStoredFields ms r.id with
    | some sf =>
      { id := r.id, score := r.score, matchStr := "",
        title := sf.title.getD "", category := sf.category.getD "",
        path := sf.path.getD "" }
    | none =>
      { id := r.id, score := r.score, matchStr := "",
        title := "", category := "", path := "" })
  sortCmp (builderCompare ms) results

/-! ## Cache (`src/utils/cache.ts`)

The in-memory tier is a JavaScript `Map` (insertion-ordered association
list); timestamps are milliseconds.  The disk tier (lines 65-83 of the
source) is not needed by the checked claims and is left out of the state
model; `Cache.getDiskPath`, which derives the on-disk filename, is modelled
below together with the base64 encoding it relies on. -/

/-- `CacheEntry<T>` of the source: payload, creation timestamp, optional
token count. -/
structure CacheEntryM (α : Type) where
  data : α
  timestamp : ℤ
  tokens : Option ℕ
deriving DecidableEq, Repr

/-- `maxMemoryEntries` of the cache configuration. -/
def maxMemoryEntries : ℕ := 1000

/-- `memoryCacheDuration`: one hour in milliseconds. -/
def memoryCacheDuration : ℤ := 1000 * 60 * 60

/-- `Map.prototype.get`. -/
def mapGet {β : Type} : List (String × β) → String → Option β
  | [], _ => none
  | (k', v') :: rest, k => if k' = k then some v' else mapGet rest k

/-- `Map.prototype.set`: updates in place, appends when the key is new. -/
def mapSet {β : Type} : List (String × β) → String → β → List (String × β)
  | [], k, v => [(k, v)]
  | (k', v') :: rest, k, v =>
    if k' = k then (k, v) :: rest else (k', v') :: mapSet rest k v

/-- `Map.prototype.delete`. -/
def mapDelete {β : Type} (m : List (String × β)) (k : String) : List (String × β) :=
  m.filter (fun p => p.1 ≠ k)

/-- `Cache.setMemoryCache`: evict the single oldest-by-timestamp entry when
at capacity, then store the value with the current time as its timestamp. -/
def setMemoryCache {α : Type} (m : List (String × CacheEntryM α)) (key : String)
    (data : α) (tokens : Option ℕ) (now : ℤ) : List (String × CacheEntryM α) :=
  let m' :=
    if maxMemoryEntries ≤ m.length then
      match (sortCmp (fun a b => ((a.2.timestamp - b.2.timestamp : ℤ) : ℚ)) m).head? with
      | some oldest => mapDelete m oldest.1
      | none => m
    else m
  mapSet m' key { data := data, timestamp := now, tokens := tokens }

/-- The memory tier of `Cache.get` (source lines 54-63): a present entry
older than the memory TTL is deleted and reported as a miss; a fresh entry
is returned.  The result pairs the returned value with the updated map. -/
def memoryGet {α : Type} (m : List (String × CacheEntryM α)) (key : String)
    (now : ℤ) : Option α × List (String × CacheEntryM α) :=
  match mapGet m key with
  | some e =>
    if memoryCacheDuration < now - e.timestamp then (none, mapDelete m key)
    else (some e.data, m)
  | none => (none, m)

/-! ### `Cache.getDiskPath` and base64 -/

/-- UTF-8 encoding of a character's code point as byte values
(model of `Buffer.from(key)` for one character). -/
def utf8EncodeCharNat (c : Char) : List ℕ :=
  let n := c.toNat
  if n < 0x80 then [n]
  else if n < 0x800 then [0xC0 + n / 64, 0x80 + n % 64]
  else if n < 0x10000 then [0xE0 + n / 4096, 0x80 + n / 64 % 64, 0x80 + n % 64]
  else [0xF0 + n / 262144, 0x80 + n / 4096 % 64, 0x80 + n / 64 % 64, 0x80 + n % 64]

/-- `Buffer.from(key)`: the UTF-8 bytes of the key. -/
def utf8Bytes (s : String) : List ℕ :=
  s.data.flatMap utf8EncodeCharNat

/-- The standard base64 alphabet used by `Buffer.prototype.toString('base64')`;
it contains the path separator `/` at position 63. -/
def base64Alphabet : List Char :=
  "ABCDEFGHIJKLMNOPQRSTUVWXYZabcdefghijklmnopqrstuvwxyz0123456789+/".toList

def b64Char (n : ℕ) : Char := base64Alphabet.getD n 'A'

/-- Standard base64 with `=` padding over a byte list. -/
def base64Encode : List ℕ → String
  | [] => ""
  | [a] =>
    String.mk [b64Char (a / 4), b64Char (a % 4 * 16), '=', '=']
  | [a, b] =>
    String.mk [b64Char (a / 4), b64Char (a % 4 * 16 + b / 16), b64Char (b % 16 * 4), '=']
  | a :: b :: c :: rest =>
    String.mk [b64Char (a / 4), b64Char (a % 4 * 16 + b / 16),
      b64Char (b % 16 * 4 + c / 64), b64Char (c % 64)] ++ base64Encode rest

/-- The filename component produced by `Cache.getDiskPath`:
`Buffer.from(key).toString('base64') + '.json'` (the directory part
`join(this.diskCachePath, ...)` is not in question). -/
def cacheFileName (key : String) : String :=
  base64Encode (utf8Bytes key) ++ ".json"

/-! ## TypeScript docs service and MCP tool handler
(`src/services/typescript-docs-service.ts`, repository entry point)

The service's `search` is modelled as a function that also records, in
order, the externally visible I/O steps it performs; the cache it consults
is abstracted as a lookup function (its value is whatever the two-tier cache
would return). -/

deriving instance DecidableEq for Except

/-- `SearchResult` of `src/types.ts` plus the `score` the service attaches. -/
structure SearchResult where
  title : String
  url : String
  description : String
  category : String
  score : ℚ
deriving DecidableEq, Repr

/-- `TypeScriptSearchArgs`. -/
structure TypeScriptSearchArgs where
  query : String
  category : Option String
deriving DecidableEq, Repr

/-- MCP error codes distinguished by the embedding. -/
inductive McpErrorCode where
  | invalidParams
  | internalError
deriving DecidableEq, Repr

/-- The externally visible I/O steps of a service-level search. -/
inductive SvcAction where
  | cacheGet
  | indexQuery
  | cacheSet
deriving DecidableEq, Repr

/-- `BaseDocsService.getCacheKey` for the TypeScript service:
`"typescript:" + JSON.stringify(args)`. -/
def getCacheKey (args : TypeScriptSearchArgs) : String :=
  "typescript:" ++ "\x7b" ++ "\x22query\x22:\x22" ++ args.query ++ "\x22" ++
    (match args.category with
     | some c => ",\x22category\x22:\x22" ++ c ++ "\x22"
     | none => "") ++ "\x7d"

/-- `TypeScriptDocsService.search`: consult the cache first and return a hit
immediately; otherwise query the index, project each hit through the
stored-field table (an absent `path` is an internal error), cache the result
(memory only) and return it.  The second component lists the I/O steps in
the order they were attempted. -/
def tsServiceSearch (args : TypeScriptSearchArgs)
    (cached : String → Option (List SearchResult)) (ms : MiniSearchIndex)
    (docsPath : String) :
    Except McpErrorCode (List SearchResult) × List SvcAction :=
  let cacheKey := getCacheKey args
  match cached cacheKey with
  | some results => (Except.ok results, [SvcAction.cacheGet])
  | none =>
    let searchResults := SearchIndexBuilder.search ms args.query args.category
    let mapped : Except McpErrorCode (List SearchResult) :=
      searchResults.foldr (fun r acc =>
        match acc with
        | Except.error e => Except.error e
        | Except.ok rest =>
          match getStoredFields ms r.id with
          | some sf =>
            match sf.path with
            | some p =>
              Except.ok ({ title := sf.title.getD "Untitled",
                           url := "file://" ++ docsPath ++ "/" ++ p,
                           description := r.matchStr,
                           category := sf.category.getD "uncategorized",
                           score := r.score } :: rest)
            | none => Except.error McpErrorCode.internalError
          | none => Except.error McpErrorCode.internalError) (Except.ok [])
    match mapped with
    | Except.error e =>
      (Except.error e, [SvcAction.cacheGet, SvcAction.indexQuery])
    | Except.ok results =>
      (Except.ok results, [SvcAction.cacheGet, SvcAction.indexQuery, SvcAction.cacheSet])

/-- The valid category values accepted by the MCP entry point. -/
def validTsCategories : List String :=
  ["handbook", "reference", "release-notes", "declaration-files", "javascript",
   "configuration", "project-structure", "tooling", "best-practices"]

/-- `isValidTypeScriptSearchArgs` of the MCP entry point: the query must be a
non-empty string and the category, when given, one of the known values. -/
def isValidTypeScriptSearchArgs (args : TypeScriptSearchArgs) : Bool :=
  0 < args.query.length &&
    (match args.category with
     | none => true
     | some c => validTsCategories.contains c)

/-- `handleTypeScriptDocsSearch` of the MCP entry point: reject invalid
arguments with `InvalidParams` before touching the service, otherwise
delegate to the service search (the "no results" message formatting of the
handler does not change the result list and is elided). -/
def handleTypeScriptDocsSearch (args : TypeScriptSearchArgs)
    (cached : String → Option (List SearchResult)) (ms : MiniSearchIndex)
    (docsPath : String) :
    Except McpErrorCode (List SearchResult) × List SvcAction :=
  if isValidTypeScriptSearchArgs args then
    tsServiceSearch args cached ms docsPath
  else
    (Except.error McpErrorCode.invalidParams, [])

/-! ## Concrete corpora used by witnesses and counterexamples -/

/-- A document whose single chunk has the baseline importance 1.0. -/
def lowImpDoc : ProcessedDoc :=
  { id := "A", title := "guide", content := "shared words here",
    chunks := [{ content := "shared words here",
                 metadata := { sectionTitle := "intro", importance := 1 } }],
    metadata := { category := "handbook", path := "a.md", lastModified := 0 } }

/-- A document with identical indexable text whose single chunk has
importance 3.5. -/
def highImpDoc : ProcessedDoc :=
  { id := "B", title := "guide", content := "shared words here",
    chunks := [{ content := "shared words here",
                 metadata := { sectionTitle := "Interface example", importance := 7/2 } }],
    metadata := { category := "handbook", path := "b.md", lastModified := 0 } }

/-- Index over `lowImpDoc` (added first) and `highImpDoc`: the two entries
score identically for the query `"guide"`. -/
def tieIndex : MiniSearchIndex := buildIndex newSearchIndexBuilder [lowImpDoc, highImpDoc]

/-- A document whose title term `interfaces` is reachable from the query
`inter` only through prefix matching. -/
def roundtripDoc : ProcessedDoc :=
  { id := "C", title := "interfaces guide", content := "",
    chunks := [{ content := "generic interfaces explained",
                 metadata := { sectionTitle := "", importance := 1 } }],
    metadata := { category := "handbook", path := "c.md", lastModified := 0 } }

def roundtripIndex : MiniSearchIndex := buildIndex newSearchIndexBuilder [roundtripDoc]

/-- Single-document corpus for the category-filter claim. -/
def catDoc : ProcessedDoc :=
  { id := "D", title := "narrowing", content := "",
    chunks := [{ content := "narrowing tricks",
                 metadata := { sectionTitle := "", importance := 1 } }],
    metadata := { category := "handbook", path := "d.md", lastModified := 0 } }

def catIndex : MiniSearchIndex := buildIndex newSearchIndexBuilder [catDoc]

/-- The hit `SearchIndexBuilder.search catIndex "narrowing" (some "handbook")`
returns. -/
def catResult : BuilderResult :=
  { id := "D_0", score := 4, matchStr := "", title := "narrowing",
    category := "handbook", path := "d.md" }

/-! ## Helper lemmas -/

theorem mem_insertCmp {α : Type} (cmp : α → α → ℚ) (x : α) (l : List α) :
    ∀ y, y ∈ insertCmp cmp x l → y = x ∨ y ∈ l := by
  induction l with
  | nil => intro y hy; simp [insertCmp] at hy; exact Or.inl hy
  | cons z zs ih =>
    intro y hy
    simp only [insertCmp] at hy
    by_cases h : cmp z x < 0
    · simp [h] at hy
      rcases hy with hy | hy
      · exact Or.inr (by simp [hy])
      · rcases ih y hy with h1 | h1
        · exact Or.inl h1
        · exact Or.inr (by simp [h1])
    · simp [h] at hy
      rcases hy with hy | hy | hy
      · exact Or.inl hy
      · exact Or.inr (by simp [hy])
      · exact Or.inr (by simp [hy])

theorem mem_sortCmp {α : Type} (cmp : α → α → ℚ) (l : List α) :
    ∀ y, y ∈ sortCmp cmp l → y ∈ l := by
  induction l with
  | nil => intro y hy; simp [sortCmp] at hy
  | cons x xs ih =>
    intro y hy
    simp only [sortCmp] at hy
    rcases mem_insertCmp cmp x (sortCmp cmp xs) y hy with h | h
    · simp [h]
    · exact List.mem_cons_of_mem _ (ih y h)

theorem chunkTokens_cons_heading (sec : String) (buf : List MdToken) (h : String)
    (ts : List MdToken) :
    chunkTokens sec buf (.heading h :: ts) =
      (if buf.isEmpty then [] else [mkChunk sec buf]) ++ chunkTokens h [] ts := rfl

theorem chunkTokens_cons_of_not (sec : String) (buf : List MdToken) (t : MdToken)
    (ts : List MdToken) (ht : t.isHeading = false) :
    chunkTokens sec buf (t :: ts) = chunkTokens sec (buf ++ [t]) ts := by
  cases t <;> simp_all [chunkTokens, MdToken.isHeading]

theorem headingCount_cons_heading (h : String) (ts : List MdToken) :
    headingCount (.heading h :: ts) = headingCount ts + 1 := by
  simp [headingCount, List.filter, MdToken.isHeading, Nat.add_comm]

theorem headingCount_cons_of_not (t : MdToken) (ts : List MdToken)
    (ht : t.isHeading = false) : headingCount (t :: ts) = headingCount ts := by
  simp [headingCount, List.filter, ht]

theorem preambleTokens_cons_heading (h : String) (ts : List MdToken) :
    preambleTokens (.heading h :: ts) = [] := by
  simp [preambleTokens, List.takeWhile, MdToken.isHeading]

theorem preambleTokens_cons_of_not (t : MdToken) (ts : List MdToken)
    (ht : t.isHeading = false) : preambleTokens (t :: ts) = t :: preambleTokens ts := by
  simp [preambleTokens, List.takeWhile, ht]

theorem hSNE_cons_of_not (t : MdToken) (ts : List MdToken) (ht : t.isHeading = false) :
    headedSectionsNonEmpty (t :: ts) = headedSectionsNonEmpty ts := by
  simp [headedSectionsNonEmpty, ht]

theorem hSNE_cons_heading (h : String) (ts : List MdToken) :
    headedSectionsNonEmpty (.heading h :: ts) =
      (match ts with
       | [] => false
       | u :: _ => !u.isHeading && headedSectionsNonEmpty ts) := by
  simp [headedSectionsNonEmpty, MdToken.isHeading]

theorem chunkTokens_ne_nil (toks : List MdToken) :
    ∀ (sec : String) (buf : List MdToken),
      (buf ≠ [] ∨ ∃ t ∈ toks, t.isHeading = false) → chunkTokens sec buf toks ≠ [] := by
  induction toks with
  | nil =>
    intro sec buf h
    rcases h with h | ⟨t, ht, _⟩
    · simp [chunkTokens, h]
    · exact absurd ht (List.not_mem_nil t)
  | cons t ts ih =>
    intro sec buf h
    by_cases htok : t.isHeading = true
    · obtain ⟨hd, rfl⟩ : ∃ s, t = .heading s := by
        cases t <;> simp_all [MdToken.isHeading]
      rw [chunkTokens_cons_heading]
      rcases h with h | ⟨u, hu, hnu⟩
      · simp [h]
      · rcases List.mem_cons.mp hu with rfl | hu'
        · simp [MdToken.isHeading] at hnu
        · have := ih hd [] (Or.inr ⟨u, hu', hnu⟩)
          intro hc
          rcases List.append_eq_nil.mp hc with ⟨_, h2⟩
          exact this h2
    · have ht : t.isHeading = false := by simpa using htok
      rw [chunkTokens_cons_of_not _ _ _ _ ht]
      exact ih sec (buf ++ [t]) (Or.inl (by simp))

theorem chunkTokens_length (toks : List MdToken) :
    ∀ (sec : String) (buf : List MdToken), headedSectionsNonEmpty toks = true →
      (chunkTokens sec buf toks).length =
        headingCount toks + (if buf = [] ∧ preambleTokens toks = [] then 0 else 1) := by
  induction toks with
  | nil =>
    intro sec buf _
    cases buf <;> simp [chunkTokens, headingCount, preambleTokens]
  | cons t ts ih =>
    intro sec buf h
    by_cases htok : t.isHeading = true
    · obtain ⟨hd, rfl⟩ : ∃ s, t = .heading s := by
        cases t <;> simp_all [MdToken.isHeading]
      rw [hSNE_cons_heading] at h
      match hts : ts with
      | [] => simp [hts] at h
      | u :: us =>
        simp only [hts] at h
        obtain ⟨hu, hrec⟩ : u.isHeading = false ∧ headedSectionsNonEmpty (u :: us) = true := by
          simpa using h
        rw [chunkTokens_cons_heading, List.length_append, ih hd [] hrec,
          headingCount_cons_heading, preambleTokens_cons_heading]
        have hpre : preambleTokens (u :: us) ≠ [] := by
          rw [preambleTokens_cons_of_not u us hu]; simp
        cases buf <;> simp [hpre]
        all_goals ring
    · have ht : t.isHeading = false := by simpa using htok
      rw [hSNE_cons_of_not t ts ht] at h
      rw [chunkTokens_cons_of_not _ _ _ _ ht, ih sec (buf ++ [t]) h,
        headingCount_cons_of_not t ts ht, preambleTokens_cons_of_not t ts ht]
      simp

theorem calculateImportance_closed_form (sec : String) (toks : List MdToken) :
    calculateImportance sec toks =
      1 + (if keyTerms.any (fun term => containsSeg term.toList (strToLower sec).toList)
             then 1 else 0)
        + (if toks.any MdToken.isCode then 1 else 0)
        + (if toks.any MdToken.isList then 1/2 else 0) := by
  simp only [calculateImportance]
  split_ifs <;> ring

theorem calculateImportance_mem (sec : String) (toks : List MdToken) :
    calculateImportance sec toks ∈ ([1, 3/2, 2, 5/2, 3, 7/2] : List ℚ) := by
  rw [calculateImportance_closed_form]
  split_ifs <;> norm_num

theorem calculateImportance_bounds (sec : String) (toks : List MdToken) :
    1 ≤ calculateImportance sec toks ∧ calculateImportance sec toks ≤ 7/2 := by
  rw [calculateImportance_closed_form]
  split_ifs <;> norm_num

theorem chunkTokens_chunk_shape (toks : List MdToken) :
    ∀ (sec : String) (buf : List MdToken), ∀ c ∈ chunkTokens sec buf toks,
      ∃ s b, c = mkChunk s b := by
  induction toks with
  | nil =>
    intro sec buf c hc
    by_cases h : buf.isEmpty <;> simp [chunkTokens, h] at hc
    exact ⟨sec, buf, hc⟩
  | cons t ts ih =>
    intro sec buf c hc
    by_cases htok : t.isHeading = true
    · obtain ⟨hd, rfl⟩ : ∃ s, t = .heading s := by
        cases t <;> simp_all [MdToken.isHeading]
      rw [chunkTokens_cons_heading] at hc
      rcases List.mem_append.mp hc with hc | hc
      · by_cases h : buf.isEmpty <;> simp [h] at hc
        exact ⟨sec, buf, hc⟩
      · exact ih hd [] c hc
    · have ht : t.isHeading = false := by simpa using htok
      rw [chunkTokens_cons_of_not _ _ _ _ ht] at hc
      exact ih sec (buf ++ [t]) c hc

theorem mapGet_mapSet_self {β : Type} (m : List (String × β)) (k : String) (v : β) :
    mapGet (mapSet m k v) k = some v := by
  induction m with
  | nil => simp [mapSet, mapGet]
  | cons p rest ih =>
    by_cases h : p.1 = k
    · simp [mapSet, mapGet, h]
    · simp [mapSet, mapGet, h, ih]

theorem engineSearch_filter_true (ms : MiniSearchIndex) (qs : List String)
    (f : String → Bool) :
    ∀ hit ∈ engineSearch ms qs (some f), f hit.id = true := by
  intro hit h
  unfold engineSearch at h
  have h1 := mem_sortCmp _ _ hit h
  rcases List.mem_map.mp h1 with ⟨e, he, rfl⟩
  rcases List.mem_filter.mp he with ⟨_, hkeep⟩
  simp at hkeep
  exact hkeep.2

theorem categoryFilter_false (ms : MiniSearchIndex) (c : String)
    (h : ∀ e ∈ ms.entries, e.stored.category ≠ some c) :
    ∀ id, categoryFilter ms c id = false := by
  intro id
  unfold categoryFilter
  cases hfind : ms.entries.find? (fun e => e.id = id) with
  | none => simp [getStoredFields, hfind]
  | some e =>
    have he : e ∈ ms.entries := List.mem_of_find?_eq_some hfind
    simp [getStoredFields, hfind]
    exact h e he

theorem engineSearch_all_false (ms : MiniSearchIndex) (qs : List String) (f : String → Bool)
    (hf : ∀ id, f id = false) : engineSearch ms qs (some f) = [] := by
  simp only [engineSearch]
  have hfil : (ms.entries.filter (fun e =>
      decide (0 < entryScore ms.pfxOn qs e) && f e.id)) = [] :=
    List.filter_eq_nil_iff.mpr (fun e _ => by simp [hf e.id])
  rw [hfil]
  simp [sortCmp]

/-! ## Claim theorems -/

unseal Rat.add Rat.mul Rat.inv Rat.sub in
/-- C1.  The claim states that on an index built by `buildIndex` an
equally-scored chunk of importance 3.5 precedes one of importance 1.0.  The
code fails this: `buildIndex` stores only `title`/`path`/`category`, so the
tie-break comparator of `search` reads `importance` as absent, defaults both
sides to 0, and the stable sort keeps the engine order.  Here the two
entries score 3 each for the query `"guide"`; the importance-1.0 chunk
`A_0` (inserted first) stays ahead of the importance-3.5 chunk `B_0`, and
the stored projections of both ids carry no importance. -/
theorem c1_tiebreak_importance_not_stored :
    (processDocForIndexing lowImpDoc).map IndexedDoc.importance = [1] ∧
    (processDocForIndexing highImpDoc).map IndexedDoc.importance = [7/2] ∧
    (SearchIndexBuilder.search tieIndex "guide" none).map BuilderResult.score = [3, 3] ∧
    (SearchIndexBuilder.search tieIndex "guide" none).map BuilderResult.id = ["A_0", "B_0"] ∧
    getStoredFields tieIndex "A_0" =
      some { title := some "guide", path := some "a.md",
             category := some "handbook", importance := none } ∧
    getStoredFields tieIndex "B_0" =
      some { title := some "guide", path := some "b.md",
             category := some "handbook", importance := none } := by
  decide

/-- C2 counterexample.  The claim asserts a non-empty chunk list for every
file with non-empty content, "including when the file consists only of
headings"; a heading-only token stream in fact produces no chunk, because
the buffer of non-heading tokens never fills and flushes flush only
non-empty buffers. -/
theorem c2_heading_only_file_yields_no_chunk :
    processFileChunks [MdToken.heading "Intro"] = [] ∧
    ([MdToken.heading "Intro"] : List MdToken) ≠ [] := by
  constructor
  · rfl
  · simp

/-- C2, amended.  Whenever the token stream contains at least one
non-heading token, `processFile` produces at least one chunk: the token is
buffered and the buffer it sits in is flushed at the next heading or at the
end of the stream. -/
theorem c2_chunks_nonempty_of_nonheading_token (toks : List MdToken)
    (h : ∃ t ∈ toks, t.isHeading = false) : processFileChunks toks ≠ [] :=
  chunkTokens_ne_nil toks "" [] (Or.inr h)

/-- C2 witness. -/
theorem c2_witness :
    (MdToken.paragraph "hello world").isHeading = false ∧
    processFileChunks [MdToken.paragraph "hello world"] ≠ [] :=
  ⟨by decide, c2_chunks_nonempty_of_nonheading_token _ (by decide)⟩

unseal Rat.add Rat.mul Rat.inv Rat.sub in
/-- C3 counterexample.  The claim asserts identical top-5 results for any
probe query after a save/load round trip.  On the index over `roundtripDoc`,
the probe query `"inter"` matches the title term `interfaces` only through
prefix matching: the original instance returns the hit `C_0`, while the
reloaded instance, whose search options fell back to the library default
`prefix: false`, returns nothing. -/
theorem c3_roundtrip_changes_results :
    (SearchIndexBuilder.search roundtripIndex "inter" none).map BuilderResult.id = ["C_0"] ∧
    SearchIndexBuilder.search (loadIndexState (saveIndexBlob roundtripIndex)) "inter" none = [] ∧
    SearchIndexBuilder.search roundtripIndex "inter" none ≠
      SearchIndexBuilder.search (loadIndexState (saveIndexBlob roundtripIndex)) "inter" none := by
  decide

/-- C3, amended.  `saveIndex` followed by `loadIndex` reproduces the index
contents (postings and stored-field table) exactly, but not the search
configuration: the loaded instance searches with prefix matching disabled,
so it coincides with the original exactly on queries that do not rely on
prefix expansion. -/
theorem c3_roundtrip_resets_search_options :
    (∀ ms : MiniSearchIndex,
      loadIndexState (saveIndexBlob ms) = { entries := ms.entries, pfxOn := false }) ∧
    (∀ (ms : MiniSearchIndex) (q : String) (cat : Option String),
      SearchIndexBuilder.search (loadIndexState (saveIndexBlob ms)) q cat =
        SearchIndexBuilder.search { entries := ms.entries, pfxOn := false } q cat) :=
  ⟨fun _ => rfl, fun _ _ _ => rfl⟩

/-- C4 counterexample.  With two consecutive headings, the first heading's
section is empty and flushes nothing: the stream has two headings but
produces a single chunk, so chunk count ≥ heading count fails. -/
theorem c4_consecutive_headings_drop_chunks :
    headingCount [MdToken.heading "A", MdToken.heading "B", MdToken.paragraph "x"] = 2 ∧
    (processFileChunks [MdToken.heading "A", MdToken.heading "B", MdToken.paragraph "x"]).length
      = 1 ∧
    ¬ (headingCount [MdToken.heading "A", MdToken.heading "B", MdToken.paragraph "x"] ≤
        (processFileChunks
          [MdToken.heading "A", MdToken.heading "B", MdToken.paragraph "x"]).length) := by
  refine ⟨rfl, rfl, by decide⟩

/-- C4, amended.  When every heading opens a non-empty section (no heading
is last or immediately followed by another heading), the chunk count equals
the heading count plus one for a non-empty preamble — hence is at least the
heading count.  Without that proviso, empty sections flush no chunk and the
count can drop below the heading count. -/
theorem c4_chunk_count_with_nonempty_sections (toks : List MdToken)
    (hsect : headedSectionsNonEmpty toks = true) (_hhead : 1 ≤ headingCount toks) :
    (processFileChunks toks).length =
      headingCount toks + (if preambleTokens toks = [] then 0 else 1) ∧
    headingCount toks ≤ (processFileChunks toks).length := by
  have h := chunkTokens_length toks "" [] hsect
  simp only [true_and, List.nil_eq] at h
  constructor
  · simpa [processFileChunks] using h
  · have : (processFileChunks toks).length =
        headingCount toks + (if preambleTokens toks = [] then 0 else 1) := by
      simpa [processFileChunks] using h
    rw [this]
    split <;> omega

/-- C4 witness. -/
theorem c4_witness :
    headedSectionsNonEmpty
        [MdToken.paragraph "p", MdToken.heading "H", MdToken.paragraph "x"] = true ∧
    1 ≤ headingCount [MdToken.paragraph "p", MdToken.heading "H", MdToken.paragraph "x"] ∧
    ((processFileChunks
        [MdToken.paragraph "p", MdToken.heading "H", MdToken.paragraph "x"]).length =
      headingCount [MdToken.paragraph "p", MdToken.heading "H", MdToken.paragraph "x"] +
        (if preambleTokens
              [MdToken.paragraph "p", MdToken.heading "H", MdToken.paragraph "x"] = []
          then 0 else 1) ∧
     headingCount [MdToken.paragraph "p", MdToken.heading "H", MdToken.paragraph "x"] ≤
      (processFileChunks
        [MdToken.paragraph "p", MdToken.heading "H", MdToken.paragraph "x"]).length) :=
  ⟨by decide, by decide, c4_chunk_count_with_nonempty_sections _ (by decide) (by decide)⟩

/-- C5.  `calculateImportance` is exactly 1.0 plus three additive,
independent boosts: +1 for a key term in the section title
(case-insensitive), +1 for a code-block token, +0.5 for a list token; a
chunk satisfying all three conditions scores exactly 2.5 more than a chunk
satisfying none. -/
theorem c5_importance_additive :
    (∀ (sec : String) (toks : List MdToken),
      calculateImportance sec toks =
        1 + (if keyTerms.any (fun term => containsSeg term.toList (strToLower sec).toList)
               then 1 else 0)
          + (if toks.any MdToken.isCode then 1 else 0)
          + (if toks.any MdToken.isList then 1/2 else 0)) ∧
    (∀ (sec1 : String) (toks1 : List MdToken) (sec2 : String) (toks2 : List MdToken),
      (keyTerms.any (fun term => containsSeg term.toList (strToLower sec1).toList)) = true →
      toks1.any MdToken.isCode = true →
      toks1.any MdToken.isList = true →
      (keyTerms.any (fun term => containsSeg term.toList (strToLower sec2).toList)) = false →
      toks2.any MdToken.isCode = false →
      toks2.any MdToken.isList = false →
      calculateImportance sec1 toks1 - calculateImportance sec2 toks2 = 5/2) := by
  constructor
  · exact calculateImportance_closed_form
  · intro sec1 toks1 sec2 toks2 h1 h2 h3 h4 h5 h6
    rw [calculateImportance_closed_form, calculateImportance_closed_form,
      h1, h2, h3, h4, h5, h6]
    norm_num

/-- C5 witness. -/
theorem c5_witness :
    (keyTerms.any (fun term =>
      containsSeg term.toList (strToLower "Interface usage").toList)) = true ∧
    ([MdToken.code "x = 1", MdToken.listTok "- a"].any MdToken.isCode) = true ∧
    ([MdToken.code "x = 1", MdToken.listTok "- a"].any MdToken.isList) = true ∧
    (keyTerms.any (fun term => containsSeg term.toList (strToLower "misc").toList)) = false ∧
    ([MdToken.paragraph "plain"].any MdToken.isCode) = false ∧
    ([MdToken.paragraph "plain"].any MdToken.isList) = false ∧
    calculateImportance "Interface usage" [MdToken.code "x = 1", MdToken.listTok "- a"] -
      calculateImportance "misc" [MdToken.paragraph "plain"] = 5/2 :=
  ⟨by decide, by decide, by decide, by decide, by decide, by decide,
    c5_importance_additive.2 "Interface usage" _ "misc" _
      (by decide) (by decide) (by decide) (by decide) (by decide) (by decide)⟩

unseal Rat.add Rat.mul Rat.inv Rat.sub in
/-- C6 counterexample.  The claim quantifies over every category filter
value, but the source installs the filter with a JS truthiness test
(`options.category ? (...) : undefined`), so the empty-string category
disables filtering: on an index whose only entry is stored under
`handbook`, a search filtered by `""` still returns that hit, whose stored
category `handbook` differs from the filter, and the result is non-empty
although nothing is indexed under `""`. -/
theorem c6_empty_category_returns_unfiltered :
    (SearchIndexBuilder.search catIndex "narrowing" (some "")).map BuilderResult.category =
      ["handbook"] ∧
    catIndex.entries.map (fun e => e.stored.category) = [some "handbook"] ∧
    SearchIndexBuilder.search catIndex "narrowing" (some "") ≠ [] ∧
    ("handbook" : String) ≠ "" := by
  decide

/-- C6, amended.  For every non-empty category filter value, `search`
returns only hits whose stored category (looked up per candidate id) equals
the filter, and a non-empty category under which nothing was indexed yields
the empty result list rather than an error; the empty-string category is
falsy in the source's filter installation and disables filtering entirely. -/
theorem c6_category_filter_sound :
    (∀ (ms : MiniSearchIndex) (q c : String), c ≠ "" →
      ∀ r ∈ SearchIndexBuilder.search ms q (some c),
        r.category = c ∧
        ∃ sf, getStoredFields ms r.id = some sf ∧ sf.category = some c) ∧
    (∀ (ms : MiniSearchIndex) (q c : String), c ≠ "" →
      (∀ e ∈ ms.entries, e.stored.category ≠ some c) →
      SearchIndexBuilder.search ms q (some c) = []) := by
  constructor
  · intro ms q c hc r hr
    unfold SearchIndexBuilder.search at hr
    simp only [if_neg hc] at hr
    have hr1 := mem_sortCmp _ _ r hr
    rcases List.mem_map.mp hr1 with ⟨hit, hhit, hfr⟩
    have hhitfull : hit ∈ engineSearch ms (cleanQuery q) (some (categoryFilter ms c)) :=
      List.take_subset _ _ hhit
    have hflt : categoryFilter ms c hit.id = true :=
      engineSearch_filter_true ms _ _ hit hhitfull
    unfold categoryFilter at hflt
    cases hsf : getStoredFields ms hit.id with
    | none => rw [hsf] at hflt; simp at hflt
    | some sf =>
      rw [hsf] at hflt
      have hcat : sf.category = some c := by simpa using hflt
      subst hfr
      simp only [hsf]
      exact ⟨by simp [hcat], sf, rfl, hcat⟩
  · intro ms q c hc h
    have hengine := engineSearch_all_false ms (cleanQuery q) (categoryFilter ms c)
      (categoryFilter_false ms c h)
    simp only [SearchIndexBuilder.search, if_neg hc, hengine]
    simp [sortCmp]

unseal Rat.add Rat.mul Rat.inv Rat.sub in
/-- C6 witness. -/
theorem c6_witness :
    catResult.category = "handbook" ∧
    SearchIndexBuilder.search catIndex "narrowing" (some "nosuch") = [] :=
  ⟨(c6_category_filter_sound.1 catIndex "narrowing" "handbook" (by decide) catResult
      (by decide)).1,
   c6_category_filter_sound.2 catIndex "narrowing" "nosuch" (by decide) (by decide)⟩

unseal Rat.add Rat.mul Rat.inv Rat.sub in
/-- C7 counterexample.  The claim says an empty query is rejected with a
caller-input error before any I/O.  At the service layer
(`TypeScriptDocsService.search`, the cited code) an empty query is not
rejected: the very first step is the cache lookup, then the index query and
the cache write, and the call returns a successful empty result. -/
theorem c7_service_empty_query_not_rejected :
    tsServiceSearch { query := "", category := none } (fun _ => none)
        newSearchIndexBuilder "docs" =
      (Except.ok [], [SvcAction.cacheGet, SvcAction.indexQuery, SvcAction.cacheSet]) ∧
    ¬ ((tsServiceSearch { query := "", category := none } (fun _ => none)
          newSearchIndexBuilder "docs").1 =
        Except.error McpErrorCode.invalidParams ∧
       (tsServiceSearch { query := "", category := none } (fun _ => none)
          newSearchIndexBuilder "docs").2 = []) := by
  decide

/-- C7, amended.  The empty-query rejection lives one layer up, in the MCP
tool handler: `isValidTypeScriptSearchArgs` requires a non-empty query, so
`handleTypeScriptDocsSearch` answers `InvalidParams` for an empty query
without performing any I/O step, whatever the category, cache and index. -/
theorem c7_handler_rejects_empty_query_before_io (cat : Option String)
    (cached : String → Option (List SearchResult)) (ms : MiniSearchIndex)
    (docsPath : String) :
    handleTypeScriptDocsSearch { query := "", category := cat } cached ms docsPath =
      (Except.error McpErrorCode.invalidParams, []) := rfl

/-- C8.  An entry set in the memory cache at time `tset` is missed by the
memory tier of `get` at any time strictly later than `tset` plus the memory
TTL, even though it is still physically present in the map, and the stale
entry is evicted by the `get`. -/
theorem c8_memory_ttl_expiry {α : Type} (m : List (String × CacheEntryM α))
    (key : String) (v : α) (tok : Option ℕ) (tset now : ℤ)
    (h : tset + memoryCacheDuration < now) :
    mapGet (setMemoryCache m key v tok tset) key = some ⟨v, tset, tok⟩ ∧
    (memoryGet (setMemoryCache m key v tok tset) key now).1 = none ∧
    (memoryGet (setMemoryCache m key v tok tset) key now).2 =
      mapDelete (setMemoryCache m key v tok tset) key := by
  have hget : mapGet (setMemoryCache m key v tok tset) key = some ⟨v, tset, tok⟩ :=
    mapGet_mapSet_self _ key _
  have hstale : memoryCacheDuration < now - tset := by omega
  refine ⟨hget, ?_, ?_⟩ <;> simp [memoryGet, hget, hstale]

/-- C8 witness. -/
theorem c8_witness :
    ((0 : ℤ) + memoryCacheDuration < 3600001) ∧
    (mapGet (setMemoryCache ([] : List (String × CacheEntryM ℕ)) "k" 5 none 0) "k" =
        some ⟨5, 0, none⟩ ∧
      (memoryGet (setMemoryCache ([] : List (String × CacheEntryM ℕ)) "k" 5 none 0)
          "k" 3600001).1 = none ∧
      (memoryGet (setMemoryCache ([] : List (String × CacheEntryM ℕ)) "k" 5 none 0)
          "k" 3600001).2 =
        mapDelete (setMemoryCache ([] : List (String × CacheEntryM ℕ)) "k" 5 none 0) "k") :=
  ⟨by decide, c8_memory_ttl_expiry [] "k" 5 none 0 3600001 (by decide)⟩

/-- C9.  The claim says the on-disk cache filename is collision-free and
contains no path-separator character.  `getDiskPath` uses standard base64
(`Buffer.toString('base64')`), whose alphabet includes `/`: for the key
`"???"` the derived filename is `Pz8/.json`, which contains the path
separator, so the filename is not filesystem-safe as the spec requires. -/
theorem c9_cache_filename_contains_separator :
    cacheFileName "???" = "Pz8/.json" ∧ '/' ∈ (cacheFileName "???").data := by
  decide

/-- C10.  Every chunk produced by `processFile` has an importance score in
the finite set \x7b1, 1.5, 2, 2.5, 3, 3.5\x7d; in particular it is at least 1
and at most 3.5. -/
theorem c10_importance_in_finite_set (toks : List MdToken) :
    ∀ c ∈ processFileChunks toks,
      c.metadata.importance ∈ ([1, 3/2, 2, 5/2, 3, 7/2] : List ℚ) ∧
      1 ≤ c.metadata.importance ∧ c.metadata.importance ≤ 7/2 := by
  intro c hc
  rcases chunkTokens_chunk_shape toks "" [] c hc with ⟨s, b, rfl⟩
  exact ⟨calculateImportance_mem s b, (calculateImportance_bounds s b).1,
    (calculateImportance_bounds s b).2⟩

/-- C10 witness. -/
theorem c10_witness :
    mkChunk "" [MdToken.paragraph "hello"] ∈
      processFileChunks [MdToken.paragraph "hello"] ∧
    ((mkChunk "" [MdToken.paragraph "hello"]).metadata.importance ∈
        ([1, 3/2, 2, 5/2, 3, 7/2] : List ℚ) ∧
      1 ≤ (mkChunk "" [MdToken.paragraph "hello"]).metadata.importance ∧
      (mkChunk "" [MdToken.paragraph "hello"]).metadata.importance ≤ 7/2) :=
  ⟨by decide, c10_importance_in_finite_set [MdToken.paragraph "hello"] _ (by decide)⟩
